import Mathlib

/-!
# Verification of the hefesto procwatch alerting core

Shallow embedding of the alert-rule DSL parser (`alert_parser.rs`), the
metric/rule domain model (`alert_rule.rs`, `alert_result.rs`,
`process_sample.rs`) and the stateful alert engine (`alert_engine.rs`).

Modelling conventions:
* Rust `f64` values (metric values, thresholds) are modelled as `ℚ`;
  the concrete numbers used by the claims (80, 1.5, 1024³, 0.001) are
  exactly representable in `f64`, so no rounding behaviour is lost.
* `std::time::Instant` is modelled as a `Nat` tick count from an
  arbitrary epoch; `Duration` as a `Nat` number of the same ticks
  (seconds, matching `Duration::from_secs` in the parser).
  `Instant::duration_since` is truncated subtraction and
  `Instant::checked_sub` fails exactly when the subtrahend exceeds the
  tick count (result before the epoch).
* `Instant::now()` calls inside one engine operation are modelled by a
  single explicit `now : Nat` argument.
* Rust `HashMap`s are modelled as functions into `Option`; insertion,
  removal and `retain` become pointwise updates.
* Fields of `ProcessSample` / `AlertResult` that the alerting core never
  reads (command line, user, process state, wall-clock sample time, the
  formatted `message` text) are omitted; all fields the engine and the
  claims touch are kept with their source names.
* The `\w` character class of the anchored rule pattern is modelled at
  its ASCII core (letters, digits, underscore); every DSL expression in
  the spec and the claims is ASCII.
-/

namespace Hefesto

/-- Errors of the domain enum conversions (`AlertRuleError` in `alert_rule.rs`). -/
inductive AlertRuleError where
  | UnknownMetric (s : String)
  | UnknownOperator (s : String)
  | UnknownWindowCondition (s : String)
deriving DecidableEq, Repr

/-- Metrics that can be monitored (`MetricType` in `alert_rule.rs`). -/
inductive MetricType where
  | Cpu
  | Rss
  | Virtual
  | Threads
  | Fd
  | ReadBytes
  | WriteBytes
deriving DecidableEq, Repr

/-- ASCII model of `str::to_lowercase` (all DSL keywords are ASCII). -/
def lowerString (s : String) : String := String.mk (s.data.map Char.toLower)

/-- ASCII model of `str::to_uppercase`. -/
def upperString (s : String) : String := String.mk (s.data.map Char.toUpper)

/-- `MetricType::parse` (called `MetricType::from_str` at the parser call site):
case-insensitive alias table. -/
def MetricType.parse (s : String) : Except AlertRuleError MetricType :=
  match lowerString s with
  | "cpu" | "cpu%" => .ok .Cpu
  | "rss" | "mem" | "memory" => .ok .Rss
  | "virtual" | "vsz" | "virt" => .ok .Virtual
  | "threads" | "thread" => .ok .Threads
  | "fd" | "fds" | "files" => .ok .Fd
  | "read" | "read_bytes" => .ok .ReadBytes
  | "write" | "write_bytes" => .ok .WriteBytes
  | other => .error (.UnknownMetric other)

/-- Comparison operators (`ComparisonOperator` in `alert_rule.rs`). -/
inductive ComparisonOperator where
  | Greater
  | GreaterEq
  | Less
  | LessEq
  | Equals
  | NotEquals
deriving DecidableEq, Repr

/-- `ComparisonOperator::evaluate`: equality/inequality use an epsilon of
`0.001`. -/
def ComparisonOperator.evaluate (op : ComparisonOperator) (value threshold : ℚ) : Bool :=
  match op with
  | .Greater => decide (value > threshold)
  | .GreaterEq => decide (value ≥ threshold)
  | .Less => decide (value < threshold)
  | .LessEq => decide (value ≤ threshold)
  | .Equals => decide (abs (value - threshold) < 1 / 1000)
  | .NotEquals => decide (abs (value - threshold) ≥ 1 / 1000)

/-- `ComparisonOperator::parse` (`from_str` at the parser call site). -/
def ComparisonOperator.parse (s : String) : Except AlertRuleError ComparisonOperator :=
  match s with
  | ">" => .ok .Greater
  | ">=" => .ok .GreaterEq
  | "<" => .ok .Less
  | "<=" => .ok .LessEq
  | "==" | "=" => .ok .Equals
  | "!=" | "<>" => .ok .NotEquals
  | other => .error (.UnknownOperator other)

/-- Units for threshold values (`ThresholdUnit` in `alert_rule.rs`). -/
inductive ThresholdUnit where
  | None
  | Percent
  | Bytes
  | Kb
  | Mb
  | Gb
deriving DecidableEq, Repr

/-- `ThresholdUnit::multiplier`. -/
def ThresholdUnit.multiplier (u : ThresholdUnit) : Nat :=
  match u with
  | .None | .Percent | .Bytes => 1
  | .Kb => 1024
  | .Mb => 1024 * 1024
  | .Gb => 1024 * 1024 * 1024

/-- `ThresholdUnit::to_bytes`. -/
def ThresholdUnit.to_bytes (u : ThresholdUnit) (value : ℚ) : ℚ :=
  value * (u.multiplier : ℚ)

/-- `ThresholdUnit::parse` (`from_str` at the parser call site); total,
falls back to `None`. -/
def ThresholdUnit.parse (s : String) : ThresholdUnit :=
  if s = "" then .None
  else
    match upperString s with
    | "%" => .Percent
    | "B" | "BYTES" => .Bytes
    | "K" | "KB" => .Kb
    | "M" | "MB" => .Mb
    | "G" | "GB" => .Gb
    | _ => .None

/-- Window conditions for time-based alerts (`WindowCondition` in
`alert_rule.rs`). -/
inductive WindowCondition where
  | For
  | Increasing
  | Decreasing
deriving DecidableEq, Repr

/-- `WindowCondition::parse` (`from_str` at the parser call site). -/
def WindowCondition.parse (s : String) : Except AlertRuleError WindowCondition :=
  match lowerString s with
  | "for" => .ok .For
  | "increasing" => .ok .Increasing
  | "decreasing" => .ok .Decreasing
  | other => .error (.UnknownWindowCondition other)

/-- CPU metrics of a sample (`CpuMetrics` in `process_sample.rs`). -/
structure CpuMetrics where
  percent_instant : ℚ
  percent_average : ℚ
  user_time_ms : Nat
  system_time_ms : Nat
  total_time_ms : Nat
deriving DecidableEq, Repr

/-- `CpuMetrics::zero`. -/
def CpuMetrics.zero : CpuMetrics := ⟨0, 0, 0, 0, 0⟩

/-- Memory metrics of a sample (`MemoryMetrics` in `process_sample.rs`). -/
structure MemoryMetrics where
  rss_bytes : Nat
  virtual_bytes : Nat
  shared_bytes : Nat
  percent_of_total : ℚ
deriving DecidableEq, Repr

/-- `MemoryMetrics::zero`. -/
def MemoryMetrics.zero : MemoryMetrics := ⟨0, 0, 0, 0⟩

/-- I/O metrics of a sample (`IoMetrics` in `process_sample.rs`). -/
structure IoMetrics where
  read_bytes : Nat
  write_bytes : Nat
  read_ops : Nat
  write_ops : Nat
deriving DecidableEq, Repr

/-- `IoMetrics::zero`. -/
def IoMetrics.zero : IoMetrics := ⟨0, 0, 0, 0⟩

/-- A point-in-time process metric snapshot (`ProcessSample` in
`process_sample.rs`); presentation-only fields (command line, user,
process state, start/sample wall-clock times) are omitted, the alerting
core never reads them. -/
structure ProcessSample where
  pid : Nat
  name : String
  cpu : CpuMetrics
  memory : MemoryMetrics
  io : IoMetrics
  thread_count : Nat
  open_file_descriptors : Nat
deriving DecidableEq, Repr

/-- `ProcessSample::minimal`: all metrics zeroed. -/
def ProcessSample.minimal (pid : Nat) (name : String) : ProcessSample :=
  ⟨pid, name, CpuMetrics.zero, MemoryMetrics.zero, IoMetrics.zero, 0, 0⟩

/-- An alert rule (`AlertRule` in `alert_rule.rs`). -/
structure AlertRule where
  expression : String
  metric : MetricType
  operator : ComparisonOperator
  threshold : ℚ
  unit : ThresholdUnit
  window : Option Nat
  window_condition : Option WindowCondition
deriving DecidableEq, Repr

/-- `AlertRule::extract_metric_value`: metric enum variant → sample field,
widened to the numeric model type. -/
def AlertRule.extract_metric_value (rule : AlertRule) (sample : ProcessSample) : ℚ :=
  match rule.metric with
  | .Cpu => sample.cpu.percent_instant
  | .Rss => (sample.memory.rss_bytes : ℚ)
  | .Virtual => (sample.memory.virtual_bytes : ℚ)
  | .Threads => (sample.thread_count : ℚ)
  | .Fd => (sample.open_file_descriptors : ℚ)
  | .ReadBytes => (sample.io.read_bytes : ℚ)
  | .WriteBytes => (sample.io.write_bytes : ℚ)

/-- `AlertRule::normalize_threshold`: raw threshold for `Cpu`, `Threads`,
`Fd`; unit conversion to bytes for all byte-valued metrics. -/
def AlertRule.normalize_threshold (rule : AlertRule) : ℚ :=
  match rule.metric with
  | .Cpu | .Threads | .Fd => rule.threshold
  | _ => rule.unit.to_bytes rule.threshold

/-- `AlertRule::evaluate`: apply the operator to the extracted value and
the normalized threshold. -/
def AlertRule.evaluate (rule : AlertRule) (sample : ProcessSample) : Bool :=
  rule.operator.evaluate (rule.extract_metric_value sample) rule.normalize_threshold

/-- Outcome of one rule evaluation (`AlertResult` in `alert_result.rs`);
the wall-clock `timestamp` and the formatted `message` text are omitted,
no claim reads them. -/
structure AlertResult where
  rule : AlertRule
  triggered : Bool
  current_value : ℚ
  threshold : ℚ
  pid : Nat
  process_name : String
deriving DecidableEq, Repr

/-- `AlertResult::triggered` (the factory function; named `mkTriggered`
here because `triggered` is taken by the field). -/
def AlertResult.mkTriggered (rule : AlertRule) (current_value : ℚ)
    (sample : ProcessSample) : AlertResult :=
  ⟨rule, true, current_value, rule.normalize_threshold, sample.pid, sample.name⟩

/-- `AlertResult::ok` (the factory function; named `mkOk` to match
`mkTriggered`). -/
def AlertResult.mkOk (rule : AlertRule) (current_value : ℚ)
    (sample : ProcessSample) : AlertResult :=
  ⟨rule, false, current_value, rule.normalize_threshold, sample.pid, sample.name⟩

/-! ## Rule parser (`alert_parser.rs`)

The anchored pattern

`(?i)^\s*([\w%]+)\s*(>=|<=|>|<|==|!=)\s*([\d.]+)\s*(%|GB|MB|KB|B)?\s*(?:(for|increasing|decreasing)\s+([\d.]+)\s*(s|m|h))?\s*$`

is embedded as a deterministic left-to-right matcher.  Determinism is
faithful to the regex because adjacent token classes are disjoint: the
metric class `[\w%]` contains no operator character, operator strings
contain no digit or dot, the threshold class `[\d.]` contains no unit
letter, the unit alternatives start with `% g m k b` while the window
keywords start with `f i d`, so the regex engine never needs to
backtrack across a group boundary to find a match. -/

/-- Errors of the DSL parser (`AlertParserError` in `alert_parser.rs`). -/
inductive AlertParserError where
  | EmptyExpression
  | InvalidExpression (raw : String)
  | UnknownMetric (s : String)
  | UnknownOperator (s : String)
  | InvalidThreshold (s : String)
  | UnknownCondition (s : String)
  | InvalidDuration (s : String)
  | UnknownDurationUnit (s : String)
deriving DecidableEq, Repr

/-- The seven capture groups of the anchored rule pattern. -/
structure RuleCaptures where
  metric : String
  op : String
  threshold : String
  unit : Option String
  cond : Option String
  durVal : Option String
  durUnit : Option String
deriving DecidableEq, Repr

/-- ASCII core of the regex `\s` class (the claims use only ASCII input). -/
def isSpaceChar (c : Char) : Bool := c.isWhitespace

/-- ASCII core of the regex class `[\w%]` used for the metric group. -/
def isMetricChar (c : Char) : Bool := c.isAlphanum || c = '_' || c = '%'

/-- The regex class `[\d.]` used for the threshold and duration groups. -/
def isNumChar (c : Char) : Bool := c.isDigit || c = '.'

/-- Case-insensitive literal token match (the regex runs under `(?i)`);
returns the consumed original characters and the rest. -/
def takeTokenCI : List Char → List Char → Option (List Char × List Char)
  | [], cs => some ([], cs)
  | _ :: _, [] => none
  | t :: ts, c :: cs =>
    if c.toLower = t then
      match takeTokenCI ts cs with
      | some (consumed, rest) => some (c :: consumed, rest)
      | none => none
    else none

/-- First-match alternation, in the order the regex lists the branches. -/
def takeAlt : List (List Char) → List Char → Option (List Char × List Char)
  | [], _ => none
  | tok :: toks, cs =>
    match takeTokenCI tok cs with
    | some r => some r
    | none => takeAlt toks cs

/-- Operator alternation `(>=|<=|>|<|==|!=)`, in regex order. -/
def opTokens : List (List Char) :=
  [['>', '='], ['<', '='], ['>'], ['<'], ['=', '='], ['!', '=']]

/-- Unit alternation `(%|GB|MB|KB|B)`, in regex order. -/
def unitTokens : List (List Char) :=
  [['%'], ['g', 'b'], ['m', 'b'], ['k', 'b'], ['b']]

/-- Window-keyword alternation `(for|increasing|decreasing)`, in regex order. -/
def condTokens : List (List Char) :=
  [['f', 'o', 'r'],
   ['i', 'n', 'c', 'r', 'e', 'a', 's', 'i', 'n', 'g'],
   ['d', 'e', 'c', 'r', 'e', 'a', 's', 'i', 'n', 'g']]

/-- Duration-unit alternation `(s|m|h)`. -/
def durUnitTokens : List (List Char) := [['s'], ['m'], ['h']]

/-- Matches the optional window group
`(?:(for|increasing|decreasing)\s+([\d.]+)\s*(s|m|h))?\s*$` against the rest
of the input.  Returns the three captures, or `none` when the whole pattern
fails to match. -/
def matchWindowGroup (cs : List Char) :
    Option (Option String × Option String × Option String) :=
  match takeAlt condTokens cs with
  | none =>
    -- group absent: the remaining input must be `\s*$`
    if (cs.dropWhile isSpaceChar).isEmpty then some (none, none, none) else none
  | some (condCap, cs) =>
    -- `\s+` : at least one whitespace character
    match cs with
    | [] => none
    | c :: cs =>
      if isSpaceChar c then
        let cs := cs.dropWhile isSpaceChar
        let durVal := cs.takeWhile isNumChar
        let cs := cs.dropWhile isNumChar
        if durVal.isEmpty then none
        else
          let cs := cs.dropWhile isSpaceChar
          match takeAlt durUnitTokens cs with
          | none => none
          | some (durUnitCap, cs) =>
            if (cs.dropWhile isSpaceChar).isEmpty then
              some (some (String.mk condCap), some (String.mk durVal),
                some (String.mk durUnitCap))
            else none
      else none

/-- `RULE_PATTERN.captures`: runs the anchored rule pattern over the
(already trimmed) input and extracts the capture groups. -/
def rulePatternCaptures (cs : List Char) : Option RuleCaptures :=
  let cs := cs.dropWhile isSpaceChar
  let metricCap := cs.takeWhile isMetricChar
  let cs := cs.dropWhile isMetricChar
  if metricCap.isEmpty then none
  else
    let cs := cs.dropWhile isSpaceChar
    match takeAlt opTokens cs with
    | none => none
    | some (opCap, cs) =>
      let cs := cs.dropWhile isSpaceChar
      let thrCap := cs.takeWhile isNumChar
      let cs := cs.dropWhile isNumChar
      if thrCap.isEmpty then none
      else
        let cs := cs.dropWhile isSpaceChar
        let unitAndRest :=
          match takeAlt unitTokens cs with
          | some (u, rest) => (some (String.mk u), rest)
          | none => ((none : Option String), cs)
        let cs := unitAndRest.2.dropWhile isSpaceChar
        match matchWindowGroup cs with
        | none => none
        | some (condCap, durValCap, durUnitCap) =>
          some ⟨String.mk metricCap, String.mk opCap, String.mk thrCap,
            unitAndRest.1, condCap, durValCap, durUnitCap⟩

/-- Digit run to a natural number (most significant first). -/
def natOfDigits (cs : List Char) : Nat :=
  cs.foldl (fun a c => 10 * a + (c.toNat - '0'.toNat)) 0

/-- Model of `f64::from_str` restricted to strings drawn from the regex
class `[\d.]+` (the only strings the parser feeds it): at most one dot
and at least one digit, value read in decimal.  `f64` rounding is
dropped; every number the claims use is exactly representable. -/
def parseDecimal (s : String) : Option ℚ :=
  let cs := s.data
  let intPart := cs.takeWhile (fun c => c ≠ '.')
  let rest := cs.dropWhile (fun c => c ≠ '.')
  if cs.isEmpty then none
  else if cs.any (fun c => ¬ isNumChar c) then none
  else
    match rest with
    | [] => some ((natOfDigits intPart : ℚ))
    | _ :: frac =>
      if frac.any (fun c => c = '.') then none
      else if intPart.isEmpty ∧ frac.isEmpty then none
      else some ((natOfDigits intPart : ℚ) + (natOfDigits frac : ℚ) / (10 ^ frac.length : ℚ))

/-- Truncation of a non-negative rational to a natural number, the `as u64`
cast applied by `parse_duration`. -/
def ratTruncToNat (q : ℚ) : Nat := q.num.toNat / q.den

/-- `parse_duration` in `alert_parser.rs`: seconds, minutes or hours to a
`Duration` in whole seconds. -/
def parse_duration (valueStr unitStr : String) : Except AlertParserError Nat :=
  match parseDecimal valueStr with
  | none => .error (.InvalidDuration valueStr)
  | some val =>
    match lowerString unitStr with
    | "s" => .ok (ratTruncToNat val)
    | "m" => .ok (ratTruncToNat (val * 60))
    | "h" => .ok (ratTruncToNat (val * 3600))
    | other => .error (.UnknownDurationUnit other)

/-- The metric-determined default unit of `parse_unit`'s fallback arm. -/
def defaultUnit (metric : MetricType) : ThresholdUnit :=
  match metric with
  | .Cpu => .Percent
  | .Rss | .Virtual | .ReadBytes | .WriteBytes => .Bytes
  | .Threads | .Fd => .None

/-- `parse_unit` in `alert_parser.rs`: resolve the optional unit capture,
falling back to a metric-determined default. -/
def parse_unit (unitStr : Option String) (metric : MetricType) : ThresholdUnit :=
  match unitStr with
  | some u => if u = "" then defaultUnit metric else ThresholdUnit.parse u
  | none => defaultUnit metric

/-- Second half of `AlertParser::parse`: resolve the captured groups into
an `AlertRule`, surfacing a distinct error per failing group. -/
def buildRule (expr : String) (caps : RuleCaptures) : Except AlertParserError AlertRule :=
  match MetricType.parse caps.metric with
  | .error _ => .error (.UnknownMetric caps.metric)
  | .ok metric =>
    match ComparisonOperator.parse caps.op with
    | .error _ => .error (.UnknownOperator caps.op)
    | .ok operator =>
      match parseDecimal caps.threshold with
      | none => .error (.InvalidThreshold caps.threshold)
      | some threshold =>
        let unit := parse_unit caps.unit metric
        match caps.cond, caps.durVal, caps.durUnit with
        | some condStr, some durValStr, some durUnitStr =>
          match WindowCondition.parse condStr with
          | .error _ => .error (.UnknownCondition condStr)
          | .ok wc =>
            match parse_duration durValStr durUnitStr with
            | .error e => .error e
            | .ok d => .ok ⟨expr, metric, operator, threshold, unit, some d, some wc⟩
        | _, _, _ => .ok ⟨expr, metric, operator, threshold, unit, none, none⟩

/-- `str::trim` on the character list. -/
def trimChars (cs : List Char) : List Char :=
  ((cs.dropWhile isSpaceChar).reverse.dropWhile isSpaceChar).reverse

/-- `AlertParser::parse`: trim, reject empty input, run the anchored
pattern, then resolve each capture group. -/
def AlertParser.parse (expression : String) : Except AlertParserError AlertRule :=
  let trimmed := trimChars expression.data
  if trimmed.isEmpty then .error .EmptyExpression
  else
    match rulePatternCaptures trimmed with
    | none => .error (.InvalidExpression (String.mk trimmed))
    | some caps => buildRule (String.mk trimmed) caps

/-- `AlertParser::is_valid`. -/
def AlertParser.is_valid (expression : String) : Bool :=
  match AlertParser.parse expression with
  | .ok _ => true
  | .error _ => false

/-! ## Alert engine (`alert_engine.rs`) -/

/-- A process sample annotated with the instant it was recorded
(`TimestampedSample`). -/
structure TimestampedSample where
  sample : ProcessSample
  timestamp : Nat
deriving DecidableEq, Repr

/-- Composite key identifying a rule evaluation against a process
(`RuleKey`). -/
structure RuleKey where
  pid : Nat
  expression : String
deriving DecidableEq, Repr

/-- The stateful alert engine (`AlertEngine`); both `HashMap`s are
modelled as functions into `Option`. -/
structure AlertEngine where
  sample_history : Nat → Option (List TimestampedSample)
  trigger_start_times : RuleKey → Option Nat
  max_history_duration : Nat

/-- `AlertEngine::new`. -/
def AlertEngine.new (max_history_duration : Nat) : AlertEngine :=
  ⟨fun _ => none, fun _ => none, max_history_duration⟩

/-- `AlertEngine::with_default_history`: 600 second retention. -/
def AlertEngine.with_default_history : AlertEngine := AlertEngine.new 600

/-- The pruning loop of `add_to_history`: pop from the front while the
front is older than the cutoff. -/
def pruneOld : List TimestampedSample → Nat → List TimestampedSample
  | [], _ => []
  | t :: rest, cutoff =>
    if t.timestamp < cutoff then pruneOld rest cutoff else t :: rest

/-- `AlertEngine::add_to_history`: append the sample to the PID's queue,
then prune entries older than `max_history_duration`.  The cutoff is
`now.checked_sub(max_history_duration).unwrap_or(now)`. -/
def AlertEngine.add_to_history (e : AlertEngine) (now : Nat)
    (sample : ProcessSample) : AlertEngine :=
  let history := (e.sample_history sample.pid).getD []
  let history := history ++ [⟨sample, now⟩]
  let cutoff := if e.max_history_duration ≤ now then now - e.max_history_duration else now
  let history := pruneOld history cutoff
  { e with sample_history := fun p => if p = sample.pid then some history else e.sample_history p }

/-- `find_oldest_after`: first history entry (front to back, i.e. oldest
first) whose timestamp is at or after `cutoff`, falling back to the very
first entry. -/
def find_oldest_after (history : List TimestampedSample) (cutoff : Nat) :
    Option TimestampedSample :=
  match history.find? (fun ts => decide (cutoff ≤ ts.timestamp)) with
  | some ts => some ts
  | none => history.head?

/-- `AlertEngine::evaluate_for_condition`: the base condition must hold
continuously for the window before the rule triggers.  The timer for
`(pid, expression)` is removed on a false observation and created lazily
(`entry(..).or_insert(now)`) on a true one. -/
def AlertEngine.evaluate_for_condition (e : AlertEngine) (now : Nat)
    (sample : ProcessSample) (rule : AlertRule) (current_value : ℚ)
    (window : Nat) : AlertEngine × AlertResult :=
  let key : RuleKey := ⟨sample.pid, rule.expression⟩
  let condition_met := rule.evaluate sample
  if condition_met then
    match e.trigger_start_times key with
    | some trigger_start =>
      let elapsed := now - trigger_start
      if window ≤ elapsed then (e, AlertResult.mkTriggered rule current_value sample)
      else (e, AlertResult.mkOk rule current_value sample)
    | none =>
      let e2 : AlertEngine :=
        { e with trigger_start_times := fun k => if k = key then some now else e.trigger_start_times k }
      let trigger_start := now
      let elapsed := now - trigger_start
      if window ≤ elapsed then (e2, AlertResult.mkTriggered rule current_value sample)
      else (e2, AlertResult.mkOk rule current_value sample)
  else
    ({ e with trigger_start_times := fun k => if k = key then none else e.trigger_start_times k },
      AlertResult.mkOk rule current_value sample)

/-- `AlertEngine::evaluate_increasing_condition`: needs at least two
history points; compares the current value against the oldest sample
inside the window (cutoff `now.checked_sub(window).unwrap_or(now)`). -/
def AlertEngine.evaluate_increasing_condition (e : AlertEngine) (now : Nat)
    (sample : ProcessSample) (rule : AlertRule) (current_value : ℚ)
    (window : Nat) : AlertResult :=
  match e.sample_history sample.pid with
  | none => AlertResult.mkOk rule current_value sample
  | some h =>
    if 2 ≤ h.length then
      let cutoff := if window ≤ now then now - window else now
      match find_oldest_after h cutoff with
      | none => AlertResult.mkOk rule current_value sample
      | some oldest =>
        let old_value := rule.extract_metric_value oldest.sample
        let threshold := rule.normalize_threshold
        if current_value - old_value ≥ threshold then
          AlertResult.mkTriggered rule current_value sample
        else AlertResult.mkOk rule current_value sample
    else AlertResult.mkOk rule current_value sample

/-- `AlertEngine::evaluate_decreasing_condition`: mirror of the
increasing case with the delta reversed. -/
def AlertEngine.evaluate_decreasing_condition (e : AlertEngine) (now : Nat)
    (sample : ProcessSample) (rule : AlertRule) (current_value : ℚ)
    (window : Nat) : AlertResult :=
  match e.sample_history sample.pid with
  | none => AlertResult.mkOk rule current_value sample
  | some h =>
    if 2 ≤ h.length then
      let cutoff := if window ≤ now then now - window else now
      match find_oldest_after h cutoff with
      | none => AlertResult.mkOk rule current_value sample
      | some oldest =>
        let old_value := rule.extract_metric_value oldest.sample
        let threshold := rule.normalize_threshold
        if old_value - current_value ≥ threshold then
          AlertResult.mkTriggered rule current_value sample
        else AlertResult.mkOk rule current_value sample
    else AlertResult.mkOk rule current_value sample

/-- `AlertEngine::evaluate_rule`: dispatch on the presence of a window
and the window condition (`window_condition` defaulted to `For`).  The
returned engine carries the trigger-timer mutation of the `For` path. -/
def AlertEngine.evaluate_rule (e : AlertEngine) (now : Nat)
    (sample : ProcessSample) (rule : AlertRule) : AlertEngine × AlertResult :=
  let current_value := rule.extract_metric_value sample
  match rule.window with
  | none =>
    if rule.evaluate sample then (e, AlertResult.mkTriggered rule current_value sample)
    else (e, AlertResult.mkOk rule current_value sample)
  | some window =>
    match rule.window_condition.getD WindowCondition.For with
    | .For => e.evaluate_for_condition now sample rule current_value window
    | .Increasing => (e, e.evaluate_increasing_condition now sample rule current_value window)
    | .Decreasing => (e, e.evaluate_decreasing_condition now sample rule current_value window)

/-- The `rules.iter().map(|rule| self.evaluate_rule(sample, rule))` loop of
`AlertEngine::evaluate`: sequential evaluation threading the mutable
engine, collecting one result per rule in input order. -/
def AlertEngine.evaluate_rules : AlertEngine → Nat → ProcessSample → List AlertRule →
    AlertEngine × List AlertResult
  | e, _, _, [] => (e, [])
  | e, now, sample, r :: rs =>
    let step := e.evaluate_rule now sample r
    let next := AlertEngine.evaluate_rules step.1 now sample rs
    (next.1, step.2 :: next.2)

/-- `AlertEngine::evaluate`: record the sample in the history first, then
evaluate every rule against it. -/
def AlertEngine.evaluate (e : AlertEngine) (now : Nat) (sample : ProcessSample)
    (rules : List AlertRule) : AlertEngine × List AlertResult :=
  AlertEngine.evaluate_rules (e.add_to_history now sample) now sample rules

/-- `AlertEngine::clear_history`: drop the PID's history queue
(`HashMap::remove`) and every trigger timer whose key has that PID
(`retain(|k, _| k.pid != pid)`). -/
def AlertEngine.clear_history (e : AlertEngine) (pid : Nat) : AlertEngine :=
  { e with
    sample_history := fun p => if p = pid then none else e.sample_history p,
    trigger_start_times := fun k => if k.pid = pid then none else e.trigger_start_times k }

/-- `AlertEngine::clear_all_history`. -/
def AlertEngine.clear_all_history (e : AlertEngine) : AlertEngine :=
  { e with sample_history := fun _ => none, trigger_start_times := fun _ => none }

/-- Harness for the temporal claims: feed a fixed rule a sequence of
`(instant, sample)` observations through `evaluate_rule`, collecting the
per-observation results. -/
def AlertEngine.evaluate_rule_seq : AlertEngine → AlertRule → List (Nat × ProcessSample) →
    AlertEngine × List AlertResult
  | e, _, [] => (e, [])
  | e, rule, (now, s) :: rest =>
    let step := e.evaluate_rule now s rule
    let next := AlertEngine.evaluate_rule_seq step.1 rule rest
    (next.1, step.2 :: next.2)

/-! ## Concrete fixtures used by counterexamples and witnesses -/

/-- A sample of PID 1 at 90 % CPU (the `make_sample(1, 90.0, 0)` of the
engine tests). -/
def sampleHigh : ProcessSample :=
  { ProcessSample.minimal 1 "test" with
      cpu := { CpuMetrics.zero with percent_instant := 90 } }

/-- A sample of PID 1 at 50 % CPU. -/
def sampleLow : ProcessSample :=
  { ProcessSample.minimal 1 "test" with
      cpu := { CpuMetrics.zero with percent_instant := 50 } }

/-- A sample of PID 1 with the given RSS. -/
def sampleRss (rss : Nat) : ProcessSample :=
  { ProcessSample.minimal 1 "test" with
      memory := { MemoryMetrics.zero with rss_bytes := rss } }

/-- The rule `cpu>80%`. -/
def simpleCpuRule : AlertRule :=
  ⟨"cpu>80%", .Cpu, .Greater, 80, .Percent, none, none⟩

/-- The rule `cpu>80% for 10s`. -/
def forRule10 : AlertRule :=
  ⟨"cpu>80% for 10s", .Cpu, .Greater, 80, .Percent, some 10, some .For⟩

/-- The rule `cpu>80% for 0s` — a zero-width `For` window, accepted by the
parser. -/
def forRule0 : AlertRule :=
  ⟨"cpu>80% for 0s", .Cpu, .Greater, 80, .Percent, some 0, some .For⟩

/-- The rule `rss>100B increasing 60s`. -/
def incRule : AlertRule :=
  ⟨"rss>100B increasing 60s", .Rss, .Greater, 100, .Bytes, some 60, some .Increasing⟩

/-- History entry: RSS 100 recorded at tick 1000. -/
def tsA : TimestampedSample := ⟨sampleRss 100, 1000⟩

/-- History entry: RSS 250 recorded at tick 1030. -/
def tsB : TimestampedSample := ⟨sampleRss 250, 1030⟩

/-- An engine holding two history entries for PID 1 and no timers. -/
def histEngine : AlertEngine :=
  ⟨fun p => if p = 1 then some [tsA, tsB] else none, fun _ => none, 600⟩

/-- An engine holding history and a timer for PIDs 1 and 2. -/
def twoPidEngine : AlertEngine :=
  ⟨fun p => if p = 1 then some [tsA] else if p = 2 then some [tsB] else none,
   fun k => if k = ⟨1, "cpu>80%"⟩ then some 7 else if k = ⟨2, "cpu>80%"⟩ then some 9 else none,
   600⟩

/-! ## Helper lemmas -/

/-- The two `AlertResult` factories record the rule unchanged. -/
theorem mkTriggered_rule (rule : AlertRule) (cv : ℚ) (s : ProcessSample) :
    (AlertResult.mkTriggered rule cv s).rule = rule := rfl

/-- See `mkTriggered_rule`. -/
theorem mkOk_rule (rule : AlertRule) (cv : ℚ) (s : ProcessSample) :
    (AlertResult.mkOk rule cv s).rule = rule := rfl

/-- `AlertResult::triggered` builds a triggered result. -/
theorem mkTriggered_triggered (rule : AlertRule) (cv : ℚ) (s : ProcessSample) :
    (AlertResult.mkTriggered rule cv s).triggered = true := rfl

/-- `AlertResult::ok` builds a non-triggered result. -/
theorem mkOk_triggered (rule : AlertRule) (cv : ℚ) (s : ProcessSample) :
    (AlertResult.mkOk rule cv s).triggered = false := rfl

/-- Every path of `evaluate_rule` returns a result carrying the input rule. -/
theorem evaluate_rule_snd_rule (e : AlertEngine) (now : Nat) (sample : ProcessSample)
    (rule : AlertRule) : ((e.evaluate_rule now sample rule).2).rule = rule := by
  unfold AlertEngine.evaluate_rule AlertEngine.evaluate_for_condition
    AlertEngine.evaluate_increasing_condition AlertEngine.evaluate_decreasing_condition
  repeat' first
    | rfl
    | split
    | dsimp only

/-- `buildRule` only ever builds rules whose `window` and
`window_condition` are both present or both absent. -/
theorem buildRule_window_iff (expr : String) (caps : RuleCaptures) (r : AlertRule)
    (h : buildRule expr caps = .ok r) : r.window.isSome ↔ r.window_condition.isSome := by
  unfold buildRule at h
  repeat' split at h
  all_goals first
    | exact absurd h (fun hh => Except.noConfusion hh)
    | (simp only [Except.ok.injEq] at h; subst h; simp)

/-! ## Claims -/

/-- C2: parsing the exact string `cpu>80% for 30s` succeeds with
metric `Cpu`, operator `Greater`, threshold `80`, unit `Percent`, a
30-second `For` window, and the trimmed original text stored verbatim in
`expression`. -/
theorem alert_c2 :
    AlertParser.parse ("cpu>80% for 30s") =
      Except.ok ⟨"cpu>80% for 30s", MetricType.Cpu, ComparisonOperator.Greater, 80,
        ThresholdUnit.Percent, some 30, some WindowCondition.For⟩ := by
  with_unfolding_all rfl

/-- C6 counterexample: the expressions `cpu=80` and `cpu<>80` of the
claim are rejected by the parser with `InvalidExpression` — the anchored
rule pattern only admits `>= <= > < == !=`, so parsing never succeeds on
an expression whose operator token is `=` or `<>`. -/
theorem alert_c6_counterexample :
    AlertParser.parse ("cpu=80") = Except.error (.InvalidExpression "cpu=80") ∧
    AlertParser.parse ("cpu<>80") = Except.error (.InvalidExpression "cpu<>80") := by
  exact ⟨by with_unfolding_all rfl, by with_unfolding_all rfl⟩

/-- C6 amended: the domain-level operator table (`ComparisonOperator::parse`,
the `from_str` used by the parser) does accept `=` as `Equals` and `<>` as
`NotEquals`, but the parser's pattern never produces those tokens: whole
expressions using them fail with `InvalidExpression`, and `Equals` /
`NotEquals` are reachable only through `==` and `!=`. -/
theorem alert_c6 :
    ComparisonOperator.parse "=" = Except.ok ComparisonOperator.Equals ∧
    ComparisonOperator.parse "<>" = Except.ok ComparisonOperator.NotEquals ∧
    AlertParser.parse ("cpu==80") =
      Except.ok ⟨"cpu==80", MetricType.Cpu, ComparisonOperator.Equals, 80,
        ThresholdUnit.Percent, none, none⟩ ∧
    AlertParser.parse ("cpu!=80") =
      Except.ok ⟨"cpu!=80", MetricType.Cpu, ComparisonOperator.NotEquals, 80,
        ThresholdUnit.Percent, none, none⟩ ∧
    AlertParser.parse ("cpu=80") = Except.error (.InvalidExpression "cpu=80") ∧
    AlertParser.parse ("cpu<>80") = Except.error (.InvalidExpression "cpu<>80") := by
  refine ⟨rfl, rfl, ?_, ?_, ?_, ?_⟩ <;> with_unfolding_all rfl

/-- C7: the parser discriminates its error cases — empty and
whitespace-only input give `EmptyExpression`, non-grammatical input gives
`InvalidExpression` carrying the raw text, and a grammatical expression
with an unknown metric word gives `UnknownMetric`; none of these returns
a rule. -/
theorem alert_c7 :
    AlertParser.parse ("") = Except.error .EmptyExpression ∧
    AlertParser.parse ("   ") = Except.error .EmptyExpression ∧
    AlertParser.parse ("garbage") = Except.error (.InvalidExpression "garbage") ∧
    AlertParser.parse ("bogus>80%") = Except.error (.UnknownMetric "bogus") := by
  refine ⟨?_, ?_, ?_, ?_⟩ <;> with_unfolding_all rfl

/-- C9: every successfully parsed rule has `window` present if and only
if `window_condition` is present. -/
theorem alert_c9 (s : String) (r : AlertRule) (h : AlertParser.parse s = .ok r) :
    r.window.isSome ↔ r.window_condition.isSome := by
  unfold AlertParser.parse at h
  dsimp only at h
  split at h
  · exact absurd h (fun hh => Except.noConfusion hh)
  · split at h
    · exact absurd h (fun hh => Except.noConfusion hh)
    · exact buildRule_window_iff _ _ _ h

/-- C9 witness: the hypothesis holds at the parse of `cpu>80% for 30s`. -/
theorem alert_c9_witness :
    (⟨"cpu>80% for 30s", MetricType.Cpu, ComparisonOperator.Greater, 80,
      ThresholdUnit.Percent, some 30, some WindowCondition.For⟩ : AlertRule).window.isSome ↔
    (⟨"cpu>80% for 30s", MetricType.Cpu, ComparisonOperator.Greater, 80,
      ThresholdUnit.Percent, some 30, some WindowCondition.For⟩ : AlertRule).window_condition.isSome :=
  alert_c9 ("cpu>80% for 30s") _ (by with_unfolding_all rfl)

/-- C5: threshold normalization — count metrics (`Cpu`, `Threads`, `Fd`)
keep the raw threshold, byte metrics scale it by the unit's byte
multiplier (1 / 1 / 1 / 1024 / 1024² / 1024³); `rss>1.5GB` normalizes to
`1.5 · 1024³` bytes; and both `AlertResult` factories store the
normalized threshold in the result's `threshold` field. -/
theorem alert_c5 :
    (∀ rule : AlertRule,
      (rule.metric = .Cpu ∨ rule.metric = .Threads ∨ rule.metric = .Fd) →
      rule.normalize_threshold = rule.threshold) ∧
    (∀ rule : AlertRule,
      (rule.metric = .Rss ∨ rule.metric = .Virtual ∨ rule.metric = .ReadBytes ∨
        rule.metric = .WriteBytes) →
      rule.normalize_threshold = rule.threshold * (rule.unit.multiplier : ℚ)) ∧
    (ThresholdUnit.None.multiplier = 1 ∧ ThresholdUnit.Percent.multiplier = 1 ∧
      ThresholdUnit.Bytes.multiplier = 1 ∧ ThresholdUnit.Kb.multiplier = 1024 ∧
      ThresholdUnit.Mb.multiplier = 1024 ^ 2 ∧ ThresholdUnit.Gb.multiplier = 1024 ^ 3) ∧
    (∃ r, AlertParser.parse ("rss>1.5GB") = .ok r ∧
      r.normalize_threshold = (3 / 2 : ℚ) * 1024 ^ 3) ∧
    (∀ (rule : AlertRule) (cv : ℚ) (sample : ProcessSample),
      (AlertResult.mkTriggered rule cv sample).threshold = rule.normalize_threshold ∧
      (AlertResult.mkOk rule cv sample).threshold = rule.normalize_threshold) := by
  refine ⟨?_, ?_, ?_, ?_, ?_⟩
  · intro rule h
    rcases h with h | h | h <;>
      simp [AlertRule.normalize_threshold, h]
  · intro rule h
    rcases h with h | h | h | h <;>
      simp [AlertRule.normalize_threshold, ThresholdUnit.to_bytes, h]
  · exact ⟨rfl, rfl, rfl, rfl, rfl, rfl⟩
  · exact ⟨⟨"rss>1.5GB", .Rss, .Greater, 3 / 2, .Gb, none, none⟩,
      by with_unfolding_all rfl, by with_unfolding_all rfl⟩
  · intro rule cv sample
    exact ⟨rfl, rfl⟩

/-- C5 witness: the normalization hypotheses hold at concrete rules. -/
theorem alert_c5_witness :
    simpleCpuRule.normalize_threshold = simpleCpuRule.threshold ∧
    incRule.normalize_threshold = incRule.threshold * (incRule.unit.multiplier : ℚ) :=
  ⟨alert_c5.1 simpleCpuRule (Or.inl rfl), alert_c5.2.1 incRule (Or.inl rfl)⟩

/-- C8: `clear_history p` empties the sample-history entry of `p` and every
trigger timer keyed to `p`, and leaves the history of every other PID, the
timers of every other PID and the retention setting untouched. -/
theorem alert_c8 (e : AlertEngine) (p : Nat) :
    (e.clear_history p).sample_history p = none ∧
    (∀ k : RuleKey, k.pid = p → (e.clear_history p).trigger_start_times k = none) ∧
    (∀ q : Nat, q ≠ p → (e.clear_history p).sample_history q = e.sample_history q) ∧
    (∀ k : RuleKey, k.pid ≠ p → (e.clear_history p).trigger_start_times k = e.trigger_start_times k) ∧
    (e.clear_history p).max_history_duration = e.max_history_duration := by
  refine ⟨?_, ?_, ?_, ?_, rfl⟩
  · simp [AlertEngine.clear_history]
  · intro k hk
    simp [AlertEngine.clear_history, hk]
  · intro q hq
    simp [AlertEngine.clear_history, hq]
  · intro k hk
    simp [AlertEngine.clear_history, hk]

/-- C8 witness: clearing PID 1 on a two-PID engine at concrete keys. -/
theorem alert_c8_witness :
    (twoPidEngine.clear_history 1).sample_history 1 = none ∧
    (twoPidEngine.clear_history 1).trigger_start_times ⟨1, "cpu>80%"⟩ = none ∧
    (twoPidEngine.clear_history 1).sample_history 2 = twoPidEngine.sample_history 2 ∧
    (twoPidEngine.clear_history 1).trigger_start_times ⟨2, "cpu>80%"⟩ =
      twoPidEngine.trigger_start_times ⟨2, "cpu>80%"⟩ := by
  have h := alert_c8 twoPidEngine 1
  exact ⟨h.1, h.2.1 ⟨1, "cpu>80%"⟩ rfl, h.2.2.1 2 (by decide),
    h.2.2.2.1 ⟨2, "cpu>80%"⟩ (by decide)⟩

/-- `evaluate_rule` never touches the sample-history map (only the `For`
path mutates, and it only writes trigger timers). -/
theorem evaluate_rule_sample_history (e : AlertEngine) (now : Nat)
    (sample : ProcessSample) (rule : AlertRule) :
    ((e.evaluate_rule now sample rule).1).sample_history = e.sample_history := by
  unfold AlertEngine.evaluate_rule AlertEngine.evaluate_for_condition
  repeat' first
    | rfl
    | split
    | dsimp only

/-- The rule loop of `evaluate` never touches the sample-history map. -/
theorem evaluate_rules_sample_history (rules : List AlertRule) :
    ∀ (e : AlertEngine) (now : Nat) (sample : ProcessSample),
    ((AlertEngine.evaluate_rules e now sample rules).1).sample_history = e.sample_history := by
  induction rules with
  | nil => intro e now sample; rfl
  | cons r rs ih =>
    intro e now sample
    show ((AlertEngine.evaluate_rules (e.evaluate_rule now sample r).1 now sample rs).1).sample_history = _
    rw [ih, evaluate_rule_sample_history]

/-- The pruning loop only drops entries from the front. -/
theorem pruneOld_suffix (l : List TimestampedSample) (c : Nat) : pruneOld l c <:+ l := by
  induction l with
  | nil => simp [pruneOld]
  | cons a t ih =>
    by_cases h : a.timestamp < c
    · simp only [pruneOld, h, if_true]
      exact ih.trans (List.suffix_cons a t)
    · simp [pruneOld, h]

/-- A back entry at least as new as the cutoff survives pruning at the back. -/
theorem pruneOld_getLast (l : List TimestampedSample) (x : TimestampedSample) (c : Nat)
    (h : ¬ x.timestamp < c) : (pruneOld (l ++ [x]) c).getLast? = some x := by
  induction l with
  | nil => simp [pruneOld, h]
  | cons a t ih =>
    by_cases ha : a.timestamp < c
    · simpa [pruneOld, ha] using ih
    · have hp : pruneOld ((a :: t) ++ [x]) c = (a :: t) ++ [x] := by
        simp [pruneOld, ha]
      rw [hp, List.getLast?_concat]

/-- The per-rule result loop evaluates each rule of the input list in
order, keeping its rule in the result. -/
theorem evaluate_rules_map_rule (rules : List AlertRule) :
    ∀ (e : AlertEngine) (now : Nat) (sample : ProcessSample),
    ((AlertEngine.evaluate_rules e now sample rules).2).map AlertResult.rule = rules := by
  induction rules with
  | nil => intro e now sample; rfl
  | cons r rs ih =>
    intro e now sample
    show ((e.evaluate_rule now sample r).2.rule ::
      ((AlertEngine.evaluate_rules (e.evaluate_rule now sample r).1 now sample rs).2).map AlertResult.rule) = r :: rs
    rw [ih, evaluate_rule_snd_rule]

/-- A windowed `increasing`/`decreasing` rule reports not-triggered when
the PID's history queue is missing or shorter than 2. -/
theorem short_history_not_triggered (e : AlertEngine) (now : Nat)
    (sample : ProcessSample) (rule : AlertRule) (w : Nat) (cond : WindowCondition)
    (hw : rule.window = some w) (hc : rule.window_condition = some cond)
    (hcond : cond ≠ WindowCondition.For)
    (hshort : ∀ h, e.sample_history sample.pid = some h → h.length < 2) :
    (e.evaluate_rule now sample rule).2.triggered = false := by
  unfold AlertEngine.evaluate_rule
  rw [hw]
  dsimp only
  rw [hc]
  dsimp only [Option.getD_some]
  cases cond with
  | For => exact absurd rfl hcond
  | Increasing =>
    dsimp only
    unfold AlertEngine.evaluate_increasing_condition
    cases hh : e.sample_history sample.pid with
    | none => rfl
    | some h =>
      have hlt := hshort h hh
      dsimp only
      rw [if_neg (show ¬ 2 ≤ h.length by omega)]
      rfl
  | Decreasing =>
    dsimp only
    unfold AlertEngine.evaluate_decreasing_condition
    cases hh : e.sample_history sample.pid with
    | none => rfl
    | some h =>
      have hlt := hshort h hh
      dsimp only
      rw [if_neg (show ¬ 2 ≤ h.length by omega)]
      rfl

/-- C4: `evaluate` is total — it yields exactly one result per input rule,
in input order (each result carries its rule), and a windowed rule with
insufficient history yields a not-triggered result instead of an error. -/
theorem alert_c4 :
    (∀ (e : AlertEngine) (now : Nat) (sample : ProcessSample) (rules : List AlertRule),
      ((e.evaluate now sample rules).2).map AlertResult.rule = rules) ∧
    (∀ (e : AlertEngine) (now : Nat) (sample : ProcessSample) (rule : AlertRule)
        (w : Nat) (cond : WindowCondition),
      rule.window = some w → rule.window_condition = some cond →
      cond ≠ WindowCondition.For →
      (∀ h, e.sample_history sample.pid = some h → h.length < 2) →
      (e.evaluate_rule now sample rule).2.triggered = false) := by
  constructor
  · intro e now sample rules
    exact evaluate_rules_map_rule rules _ now sample
  · intro e now sample rule w cond hw hc hcond hshort
    exact short_history_not_triggered e now sample rule w cond hw hc hcond hshort

/-- C4 witness: two concrete rules evaluated on a fresh engine give two
results in order, and an increasing rule with a single history entry does
not trigger. -/
theorem alert_c4_witness :
    ((AlertEngine.with_default_history.evaluate 1000 sampleHigh
      [simpleCpuRule, incRule]).2).map AlertResult.rule = [simpleCpuRule, incRule] ∧
    (AlertEngine.with_default_history.evaluate_rule 1000 sampleHigh incRule).2.triggered = false := by
  constructor
  · exact alert_c4.1 AlertEngine.with_default_history 1000 sampleHigh [simpleCpuRule, incRule]
  · exact alert_c4.2 AlertEngine.with_default_history 1000 sampleHigh incRule 60
      WindowCondition.Increasing rfl rfl (by decide)
      (fun h hh => by
        simp [AlertEngine.with_default_history, AlertEngine.new] at hh)

/-- C10: `evaluate_rule` never changes the sample-history map; only
`evaluate` records the sample — the recorded queue ends with the new
`(sample, now)` entry, is a suffix of the old queue with that entry
appended (front entries may be pruned), other PIDs are untouched, and the
rules are evaluated against the post-recording state; consequently an
`increasing`/`decreasing` rule evaluated exclusively through
`evaluate_rule` on a fresh engine never triggers. -/
theorem alert_c10 :
    (∀ (e : AlertEngine) (now : Nat) (sample : ProcessSample) (rule : AlertRule),
      ((e.evaluate_rule now sample rule).1).sample_history = e.sample_history) ∧
    (∀ (e : AlertEngine) (now : Nat) (sample : ProcessSample) (rules : List AlertRule),
      ((e.evaluate now sample rules).1).sample_history =
        (e.add_to_history now sample).sample_history ∧
      ∃ q, (e.add_to_history now sample).sample_history sample.pid = some q ∧
        q.getLast? = some ⟨sample, now⟩ ∧
        q <:+ ((e.sample_history sample.pid).getD [] ++ [⟨sample, now⟩]) ∧
        ∀ p, p ≠ sample.pid →
          (e.add_to_history now sample).sample_history p = e.sample_history p) ∧
    (∀ (rule : AlertRule) (w : Nat) (cond : WindowCondition),
      rule.window = some w → rule.window_condition = some cond →
      (cond = WindowCondition.Increasing ∨ cond = WindowCondition.Decreasing) →
      ∀ (e : AlertEngine), (∀ p, e.sample_history p = none) →
      ∀ (obs : List (Nat × ProcessSample)) (r : AlertResult),
        r ∈ (e.evaluate_rule_seq rule obs).2 → r.triggered = false) := by
  refine ⟨evaluate_rule_sample_history, ?_, ?_⟩
  · intro e now sample rules
    constructor
    · exact evaluate_rules_sample_history rules _ now sample
    · refine ⟨pruneOld ((e.sample_history sample.pid).getD [] ++ [⟨sample, now⟩])
        (if e.max_history_duration ≤ now then now - e.max_history_duration else now),
        ?_, ?_, ?_, ?_⟩
      · simp [AlertEngine.add_to_history]
      · apply pruneOld_getLast
        dsimp only
        split <;> omega
      · exact pruneOld_suffix _ _
      · intro p hp
        simp [AlertEngine.add_to_history, hp]
  · intro rule w cond hw hc hcond
    have hne : cond ≠ WindowCondition.For := by
      rcases hcond with h | h <;> subst h <;> simp
    intro e he obs
    induction obs generalizing e with
    | nil =>
      intro r hr
      simp [AlertEngine.evaluate_rule_seq] at hr
    | cons o rest ih =>
      obtain ⟨now, s⟩ := o
      intro r hr
      have hrw : (e.evaluate_rule_seq rule ((now, s) :: rest)).2 =
          (e.evaluate_rule now s rule).2 ::
          ((e.evaluate_rule now s rule).1.evaluate_rule_seq rule rest).2 := rfl
      rw [hrw] at hr
      rcases List.mem_cons.mp hr with h | h
      · subst h
        exact short_history_not_triggered e now s rule w cond hw hc hne
          (fun h' hh' => by rw [he s.pid] at hh'; exact Option.noConfusion hh')
      · exact ih (e.evaluate_rule now s rule).1
          (fun p => by rw [evaluate_rule_sample_history]; exact he p) r h

/-- C10 witness: a single `evaluate_rule` of an increasing rule on a
fresh engine reports not-triggered. -/
theorem alert_c10_witness :
    ((AlertEngine.with_default_history.evaluate_rule 1000 (sampleRss 100) incRule).2).triggered
      = false :=
  alert_c10.2.2 incRule 60 WindowCondition.Increasing rfl rfl (Or.inl rfl)
    AlertEngine.with_default_history (fun _ => rfl)
    [(1000, sampleRss 100)] _ (List.Mem.head _)

/-- `evaluate_rule` on an `increasing`-windowed rule dispatches to
`evaluate_increasing_condition` and leaves the engine unchanged. -/
theorem evaluate_rule_inc_eq (e : AlertEngine) (now : Nat) (sample : ProcessSample)
    (rule : AlertRule) (w : Nat) (hw : rule.window = some w)
    (hc : rule.window_condition = some WindowCondition.Increasing) :
    e.evaluate_rule now sample rule =
      (e, e.evaluate_increasing_condition now sample rule (rule.extract_metric_value sample) w) := by
  unfold AlertEngine.evaluate_rule
  rw [hw]
  dsimp only
  rw [hc]
  rfl

/-- `evaluate_rule` on a `decreasing`-windowed rule dispatches to
`evaluate_decreasing_condition` and leaves the engine unchanged. -/
theorem evaluate_rule_dec_eq (e : AlertEngine) (now : Nat) (sample : ProcessSample)
    (rule : AlertRule) (w : Nat) (hw : rule.window = some w)
    (hc : rule.window_condition = some WindowCondition.Decreasing) :
    e.evaluate_rule now sample rule =
      (e, e.evaluate_decreasing_condition now sample rule (rule.extract_metric_value sample) w) := by
  unfold AlertEngine.evaluate_rule
  rw [hw]
  dsimp only
  rw [hc]
  rfl

/-- C3: an `increasing`/`decreasing` windowed rule is not triggered when
the PID has fewer than 2 history entries (for any threshold); otherwise,
with `old` the first (oldest) history entry at or after `now - window` —
falling back to the very first entry when none qualifies — it triggers
exactly when the current-minus-old delta (old-minus-current for
`decreasing`) reaches the normalized threshold.  The hypothesis
`w ≤ now` states that the cutoff instant `now - window` is representable
(`Instant::checked_sub` succeeds). -/
theorem alert_c3 (e : AlertEngine) (now : Nat) (sample : ProcessSample)
    (rule : AlertRule) (w : Nat) (cond : WindowCondition)
    (hw : rule.window = some w) (hc : rule.window_condition = some cond)
    (hcond : cond = WindowCondition.Increasing ∨ cond = WindowCondition.Decreasing) :
    (∀ h, e.sample_history sample.pid = some h → h.length < 2 →
      (e.evaluate_rule now sample rule).2.triggered = false) ∧
    (e.sample_history sample.pid = none →
      (e.evaluate_rule now sample rule).2.triggered = false) ∧
    (w ≤ now → ∀ h, e.sample_history sample.pid = some h → 2 ≤ h.length →
      ∃ ts, (h.find? (fun x => decide (now - w ≤ x.timestamp)) = some ts ∨
             (h.find? (fun x => decide (now - w ≤ x.timestamp)) = none ∧ h.head? = some ts)) ∧
        ((e.evaluate_rule now sample rule).2.triggered = true ↔
          (if cond = WindowCondition.Increasing
           then rule.normalize_threshold ≤
             rule.extract_metric_value sample - rule.extract_metric_value ts.sample
           else rule.normalize_threshold ≤
             rule.extract_metric_value ts.sample - rule.extract_metric_value sample))) := by
  have hne : cond ≠ WindowCondition.For := by
    rcases hcond with h | h <;> subst h <;> simp
  refine ⟨?_, ?_, ?_⟩
  · intro h hh hlen
    refine short_history_not_triggered e now sample rule w cond hw hc hne ?_
    intro h' hh'
    rw [hh] at hh'
    injection hh' with hx
    subst hx
    exact hlen
  · intro hnone
    refine short_history_not_triggered e now sample rule w cond hw hc hne ?_
    intro h' hh'
    rw [hnone] at hh'
    exact Option.noConfusion hh'
  · intro hwn h hh hlen
    rcases hcond with hcI | hcD
    · subst hcI
      rw [evaluate_rule_inc_eq e now sample rule w hw hc]
      dsimp only
      unfold AlertEngine.evaluate_increasing_condition
      rw [hh]
      dsimp only
      rw [if_pos hlen, if_pos hwn]
      unfold find_oldest_after
      cases hf : h.find? (fun x => decide (now - w ≤ x.timestamp)) with
      | some ts =>
        refine ⟨ts, Or.inl rfl, ?_⟩
        dsimp only
        by_cases hcmp : rule.extract_metric_value sample - rule.extract_metric_value ts.sample ≥
            rule.normalize_threshold
        · rw [if_pos hcmp]
          simpa [mkTriggered_triggered] using hcmp
        · rw [if_neg hcmp]
          simpa [mkOk_triggered] using hcmp
      | none =>
        cases h with
        | nil => simp at hlen
        | cons a t =>
          refine ⟨a, Or.inr ⟨rfl, rfl⟩, ?_⟩
          simp only [List.head?_cons]
          by_cases hcmp : rule.extract_metric_value sample - rule.extract_metric_value a.sample ≥
              rule.normalize_threshold
          · rw [if_pos hcmp]
            simpa [mkTriggered_triggered] using hcmp
          · rw [if_neg hcmp]
            simpa [mkOk_triggered] using hcmp
    · subst hcD
      rw [evaluate_rule_dec_eq e now sample rule w hw hc]
      dsimp only
      unfold AlertEngine.evaluate_decreasing_condition
      rw [hh]
      dsimp only
      rw [if_pos hlen, if_pos hwn]
      unfold find_oldest_after
      cases hf : h.find? (fun x => decide (now - w ≤ x.timestamp)) with
      | some ts =>
        refine ⟨ts, Or.inl rfl, ?_⟩
        dsimp only
        by_cases hcmp : rule.extract_metric_value ts.sample - rule.extract_metric_value sample ≥
            rule.normalize_threshold
        · rw [if_pos hcmp]
          simpa [mkTriggered_triggered] using hcmp
        · rw [if_neg hcmp]
          simpa [mkOk_triggered] using hcmp
      | none =>
        cases h with
        | nil => simp at hlen
        | cons a t =>
          refine ⟨a, Or.inr ⟨rfl, rfl⟩, ?_⟩
          simp only [List.head?_cons]
          by_cases hcmp : rule.extract_metric_value a.sample - rule.extract_metric_value sample ≥
              rule.normalize_threshold
          · rw [if_pos hcmp]
            simpa [mkTriggered_triggered] using hcmp
          · rw [if_neg hcmp]
            simpa [mkOk_triggered] using hcmp

/-- C3 witness: on an engine with history `[rss 100 @1000, rss 250 @1030]`
for PID 1, the rule `rss>100B increasing 60s` triggers at tick 1030 with
current RSS 250. -/
theorem alert_c3_witness :
    ((histEngine.evaluate_rule 1030 (sampleRss 250) incRule).2).triggered = true := by
  obtain ⟨ts, hsel, hiff⟩ :=
    (alert_c3 histEngine 1030 (sampleRss 250) incRule 60 WindowCondition.Increasing
      rfl rfl (Or.inl rfl)).2.2 (by omega) [tsA, tsB] rfl (by decide)
  have hfind : [tsA, tsB].find? (fun x => decide (1030 - 60 ≤ x.timestamp)) = some tsA := rfl
  rcases hsel with h1 | ⟨h1, _⟩
  · rw [hfind] at h1
    injection h1 with h1
    subst h1
    refine hiff.mpr ?_
    rw [if_pos rfl]
    exact of_decide_eq_true (by with_unfolding_all rfl)
  · rw [hfind] at h1
    exact Option.noConfusion h1

/-! ## The `For`-window step and trace lemmas -/

/-- `evaluate_rule` on a `For`-windowed rule dispatches to
`evaluate_for_condition`. -/
theorem evaluate_rule_for_eq (e : AlertEngine) (now : Nat) (sample : ProcessSample)
    (rule : AlertRule) (w : Nat) (hw : rule.window = some w)
    (hc : rule.window_condition = some WindowCondition.For) :
    e.evaluate_rule now sample rule =
      e.evaluate_for_condition now sample rule (rule.extract_metric_value sample) w := by
  unfold AlertEngine.evaluate_rule
  rw [hw]
  dsimp only
  rw [hc]
  rfl

/-- A false observation of a `For` rule: the `(pid, expression)` timer is
removed and the result is not triggered. -/
theorem for_false_step (e : AlertEngine) (now : Nat) (sample : ProcessSample)
    (rule : AlertRule) (cv : ℚ) (w : Nat) (hf : rule.evaluate sample = false) :
    e.evaluate_for_condition now sample rule cv w =
      ({ e with trigger_start_times :=
          fun k => if k = ⟨sample.pid, rule.expression⟩ then none else e.trigger_start_times k },
        AlertResult.mkOk rule cv sample) := by
  unfold AlertEngine.evaluate_for_condition
  dsimp only
  rw [hf]
  rfl

/-- A true observation of a `For` rule with a running timer leaves the
engine unchanged. -/
theorem for_true_some_fst (e : AlertEngine) (now : Nat) (sample : ProcessSample)
    (rule : AlertRule) (cv : ℚ) (w t0 : Nat) (ht : rule.evaluate sample = true)
    (hs : e.trigger_start_times ⟨sample.pid, rule.expression⟩ = some t0) :
    (e.evaluate_for_condition now sample rule cv w).1 = e := by
  unfold AlertEngine.evaluate_for_condition
  dsimp only
  rw [ht, hs]
  rw [if_pos rfl]
  dsimp only
  split <;> rfl

/-- A true observation of a `For` rule with a running timer: the result
is triggered exactly when the elapsed time since the timer start reaches
the window. -/
theorem for_true_some_snd (e : AlertEngine) (now : Nat) (sample : ProcessSample)
    (rule : AlertRule) (cv : ℚ) (w t0 : Nat) (ht : rule.evaluate sample = true)
    (hs : e.trigger_start_times ⟨sample.pid, rule.expression⟩ = some t0) :
    (e.evaluate_for_condition now sample rule cv w).2 =
      (if w ≤ now - t0 then AlertResult.mkTriggered rule cv sample
       else AlertResult.mkOk rule cv sample) := by
  unfold AlertEngine.evaluate_for_condition
  dsimp only
  rw [ht, hs]
  rw [if_pos rfl]
  dsimp only
  split <;> rfl

/-- A true observation of a `For` rule with no timer creates the timer at
`now`, leaving all other timers unchanged. -/
theorem for_true_none_fst (e : AlertEngine) (now : Nat) (sample : ProcessSample)
    (rule : AlertRule) (cv : ℚ) (w : Nat) (ht : rule.evaluate sample = true)
    (hn : e.trigger_start_times ⟨sample.pid, rule.expression⟩ = none) :
    (e.evaluate_for_condition now sample rule cv w).1 =
      { e with trigger_start_times :=
          fun k => if k = ⟨sample.pid, rule.expression⟩ then some now else e.trigger_start_times k } := by
  unfold AlertEngine.evaluate_for_condition
  dsimp only
  rw [ht, hn]
  rw [if_pos rfl]
  dsimp only
  split <;> rfl

/-- A true observation of a `For` rule with no timer: the result is
triggered exactly when the window is already filled by the zero elapsed
time (i.e. only for a zero window). -/
theorem for_true_none_snd (e : AlertEngine) (now : Nat) (sample : ProcessSample)
    (rule : AlertRule) (cv : ℚ) (w : Nat) (ht : rule.evaluate sample = true)
    (hn : e.trigger_start_times ⟨sample.pid, rule.expression⟩ = none) :
    (e.evaluate_for_condition now sample rule cv w).2 =
      (if w ≤ now - now then AlertResult.mkTriggered rule cv sample
       else AlertResult.mkOk rule cv sample) := by
  unfold AlertEngine.evaluate_for_condition
  dsimp only
  rw [ht, hn]
  rw [if_pos rfl]
  dsimp only
  split <;> rfl

/-- `evaluate_rule_seq` produces one result per observation. -/
theorem evaluate_rule_seq_length (rule : AlertRule) :
    ∀ (obs : List (Nat × ProcessSample)) (e : AlertEngine),
      ((e.evaluate_rule_seq rule obs).2).length = obs.length := by
  intro obs
  induction obs with
  | nil => intro e; rfl
  | cons o rest ih =>
    intro e
    obtain ⟨t, s⟩ := o
    have hrw : (e.evaluate_rule_seq rule ((t, s) :: rest)).2 =
        (e.evaluate_rule t s rule).2 ::
        ((e.evaluate_rule t s rule).1.evaluate_rule_seq rule rest).2 := rfl
    rw [hrw, List.length_cons, ih, List.length_cons]

/-- `getLast?` of a cons with a nonempty tail is the tail's `getLast?`. -/
theorem getLast?_cons_of_ne_nil {α : Type} (a : α) (l : List α) (h : l ≠ []) :
    (a :: l).getLast? = l.getLast? := by
  cases l with
  | nil => exact absurd rfl h
  | cons b t => simp [List.getLast?_cons_cons]

/-- Every nonempty list has a last element. -/
theorem getLast?_isSome_of_cons {α : Type} (a : α) (l : List α) :
    ∃ x, (a :: l).getLast? = some x := by
  induction l generalizing a with
  | nil => exact ⟨a, rfl⟩
  | cons b t ih =>
    obtain ⟨x, hx⟩ := ih b
    exact ⟨x, by rw [List.getLast?_cons_cons]; exact hx⟩

/-- Trace invariant of a `For` rule while the base condition keeps
holding and a timer at `t0` is running: the timer survives unchanged and
the last observation at instant `tl` is triggered exactly when
`tl - t0 ≥ w`. -/
theorem for_seq_some (rule : AlertRule) (w p t0 : Nat)
    (hw : rule.window = some w) (hc : rule.window_condition = some WindowCondition.For) :
    ∀ (obs : List (Nat × ProcessSample)) (e : AlertEngine),
      (∀ x ∈ obs, (x.2).pid = p ∧ rule.evaluate x.2 = true) →
      e.trigger_start_times ⟨p, rule.expression⟩ = some t0 →
      ((e.evaluate_rule_seq rule obs).1.trigger_start_times ⟨p, rule.expression⟩ = some t0 ∧
       ∀ tl sl, obs.getLast? = some (tl, sl) →
         ∃ res, (e.evaluate_rule_seq rule obs).2.getLast? = some res ∧
           (res.triggered = true ↔ w ≤ tl - t0)) := by
  intro obs
  induction obs with
  | nil =>
    intro e hall ht0
    exact ⟨ht0, fun tl sl h => by simp at h⟩
  | cons o rest ih =>
    intro e hall ht0
    obtain ⟨t, s⟩ := o
    obtain ⟨hpid, htrue⟩ := hall (t, s) (List.mem_cons_self _ _)
    have hkey : (⟨s.pid, rule.expression⟩ : RuleKey) = ⟨p, rule.expression⟩ := by rw [hpid]
    have hfst : (e.evaluate_rule t s rule).1 = e := by
      rw [evaluate_rule_for_eq e t s rule w hw hc]
      exact for_true_some_fst e t s rule _ w t0 htrue (by rw [hkey]; exact ht0)
    have hsnd : (e.evaluate_rule t s rule).2 =
        (if w ≤ t - t0 then AlertResult.mkTriggered rule (rule.extract_metric_value s) s
         else AlertResult.mkOk rule (rule.extract_metric_value s) s) := by
      rw [evaluate_rule_for_eq e t s rule w hw hc]
      exact for_true_some_snd e t s rule _ w t0 htrue (by rw [hkey]; exact ht0)
    have hrest := ih e (fun x hx => hall x (List.mem_cons_of_mem _ hx)) ht0
    constructor
    · show ((e.evaluate_rule t s rule).1.evaluate_rule_seq rule rest).1.trigger_start_times
        ⟨p, rule.expression⟩ = some t0
      rw [hfst]
      exact hrest.1
    · intro tl sl hlast
      cases rest with
      | nil =>
        have h' : some (t, s) = some (tl, sl) := hlast
        injection h' with h'
        injection h' with h1 h2
        subst h1
        subst h2
        refine ⟨(e.evaluate_rule t s rule).2, rfl, ?_⟩
        rw [hsnd]
        by_cases hcmp : w ≤ t - t0
        · rw [if_pos hcmp]
          simp [mkTriggered_triggered, hcmp]
        · rw [if_neg hcmp]
          simp [mkOk_triggered, hcmp]
      | cons o2 rest2 =>
        have hlast2 : (o2 :: rest2).getLast? = some (tl, sl) := by
          rw [List.getLast?_cons_cons] at hlast
          exact hlast
        obtain ⟨res, hres, hiff⟩ := hrest.2 tl sl hlast2
        refine ⟨res, ?_, hiff⟩
        show ((e.evaluate_rule t s rule).2 ::
          ((e.evaluate_rule t s rule).1.evaluate_rule_seq rule (o2 :: rest2)).2).getLast? = some res
        rw [hfst]
        have hne : (e.evaluate_rule_seq rule (o2 :: rest2)).2 ≠ [] := by
          have hlenq := evaluate_rule_seq_length rule (o2 :: rest2) e
          intro hnil
          rw [hnil] at hlenq
          simp at hlenq
        rw [getLast?_cons_of_ne_nil _ _ hne]
        exact hres

/-- C1 amended: for a `For`-windowed rule, (a) starting from a state with
no timer for `(pid, expression)`, an uninterrupted run of observations
satisfying the base condition reports triggered on its last observation
(instant `tl`, first observation at `t0`) exactly when `tl - t0 ≥ window`
— in particular the very first true observation triggers only when the
window is zero (elapsed 0), never for a positive window; and (b) a single
false observation removes the `(pid, expression)` timer (leaving all
other timers unchanged) and reports not-triggered, so triggering again
requires the full window from scratch. -/
theorem alert_c1 (rule : AlertRule) (w : Nat)
    (hw : rule.window = some w) (hc : rule.window_condition = some WindowCondition.For) :
    (∀ (e : AlertEngine) (p t0 : Nat) (s0 : ProcessSample)
        (rest : List (Nat × ProcessSample)),
      (∀ x ∈ (t0, s0) :: rest, (x.2).pid = p ∧ rule.evaluate x.2 = true) →
      e.trigger_start_times ⟨p, rule.expression⟩ = none →
      ∃ tl sl res, ((t0, s0) :: rest).getLast? = some (tl, sl) ∧
        (e.evaluate_rule_seq rule ((t0, s0) :: rest)).2.getLast? = some res ∧
        (res.triggered = true ↔ w ≤ tl - t0)) ∧
    (∀ (e : AlertEngine) (now : Nat) (sample : ProcessSample),
      rule.evaluate sample = false →
      ((e.evaluate_rule now sample rule).2.triggered = false ∧
       (e.evaluate_rule now sample rule).1.trigger_start_times
         ⟨sample.pid, rule.expression⟩ = none ∧
       ∀ k : RuleKey, k ≠ ⟨sample.pid, rule.expression⟩ →
         (e.evaluate_rule now sample rule).1.trigger_start_times k =
           e.trigger_start_times k)) := by
  constructor
  · intro e p t0 s0 rest hall hnone
    obtain ⟨hpid0, htrue0⟩ := hall (t0, s0) (List.mem_cons_self _ _)
    have hkey : (⟨s0.pid, rule.expression⟩ : RuleKey) = ⟨p, rule.expression⟩ := by rw [hpid0]
    have hfst0 : (e.evaluate_rule t0 s0 rule).1 =
        { e with trigger_start_times :=
            fun k => if k = ⟨s0.pid, rule.expression⟩ then some t0 else e.trigger_start_times k } := by
      rw [evaluate_rule_for_eq e t0 s0 rule w hw hc]
      exact for_true_none_fst e t0 s0 rule _ w htrue0 (by rw [hkey]; exact hnone)
    have hsnd : (e.evaluate_rule t0 s0 rule).2 =
        (if w ≤ t0 - t0 then AlertResult.mkTriggered rule (rule.extract_metric_value s0) s0
         else AlertResult.mkOk rule (rule.extract_metric_value s0) s0) := by
      rw [evaluate_rule_for_eq e t0 s0 rule w hw hc]
      exact for_true_none_snd e t0 s0 rule _ w htrue0 (by rw [hkey]; exact hnone)
    have htimer : (e.evaluate_rule t0 s0 rule).1.trigger_start_times ⟨p, rule.expression⟩ =
        some t0 := by
      rw [hfst0]
      dsimp only
      rw [if_pos hkey.symm]
    cases rest with
    | nil =>
      refine ⟨t0, s0, (e.evaluate_rule t0 s0 rule).2, rfl, rfl, ?_⟩
      rw [hsnd]
      by_cases hcmp : w ≤ t0 - t0
      · rw [if_pos hcmp]
        simp only [mkTriggered_triggered, true_iff]
        exact hcmp
      · rw [if_neg hcmp]
        simp only [mkOk_triggered, Bool.false_eq_true, false_iff]
        exact hcmp
    | cons o2 rest2 =>
      obtain ⟨⟨tl, sl⟩, hlast2⟩ := getLast?_isSome_of_cons o2 rest2
      have hrest := for_seq_some rule w p t0 hw hc (o2 :: rest2) (e.evaluate_rule t0 s0 rule).1
        (fun x hx => hall x (List.mem_cons_of_mem _ hx)) htimer
      obtain ⟨res, hres, hiff⟩ := hrest.2 tl sl hlast2
      refine ⟨tl, sl, res, ?_, ?_, hiff⟩
      · rw [List.getLast?_cons_cons]
        exact hlast2
      · show ((e.evaluate_rule t0 s0 rule).2 ::
          ((e.evaluate_rule t0 s0 rule).1.evaluate_rule_seq rule (o2 :: rest2)).2).getLast? = some res
        have hne : ((e.evaluate_rule t0 s0 rule).1.evaluate_rule_seq rule (o2 :: rest2)).2 ≠ [] := by
          have hlenq := evaluate_rule_seq_length rule (o2 :: rest2) (e.evaluate_rule t0 s0 rule).1
          intro hnil
          rw [hnil] at hlenq
          simp at hlenq
        rw [getLast?_cons_of_ne_nil _ _ hne]
        exact hres
  · intro e now sample hfalse
    have hstep : e.evaluate_rule now sample rule =
        ({ e with trigger_start_times :=
            fun k => if k = ⟨sample.pid, rule.expression⟩ then none else e.trigger_start_times k },
          AlertResult.mkOk rule (rule.extract_metric_value sample) sample) := by
      rw [evaluate_rule_for_eq e now sample rule w hw hc]
      exact for_false_step e now sample rule _ w hfalse
    refine ⟨?_, ?_, ?_⟩
    · rw [hstep]
      rfl
    · rw [hstep]
      dsimp only
      rw [if_pos rfl]
    · intro k hk
      rw [hstep]
      dsimp only
      rw [if_neg hk]

/-- C1 counterexample: the rule `cpu>80% for 0s` — accepted by the parser
with a zero window — triggers on the very first observation on which the
base condition is true (fresh engine, no prior timer), contradicting the
claim that the first true observation never reports triggered. -/
theorem alert_c1_counterexample :
    AlertParser.parse ("cpu>80% for 0s") = Except.ok forRule0 ∧
    AlertEngine.with_default_history.trigger_start_times ⟨1, forRule0.expression⟩ = none ∧
    forRule0.evaluate sampleHigh = true ∧
    ((AlertEngine.with_default_history.evaluate_rule 5 sampleHigh forRule0).2).triggered
      = true := by
  exact ⟨by with_unfolding_all rfl, rfl, by with_unfolding_all rfl,
    by with_unfolding_all rfl⟩

/-- C1 witness: two uninterrupted true observations of `cpu>80% for 10s`
at instants 0 and 10 starting from a fresh engine: the last observation
is triggered exactly when `10 - 0 ≥ 10`, which holds. -/
theorem alert_c1_witness :
    ∃ tl sl res, ([((0 : Nat), sampleHigh), (10, sampleHigh)]).getLast? = some (tl, sl) ∧
      (AlertEngine.with_default_history.evaluate_rule_seq forRule10
        [(0, sampleHigh), (10, sampleHigh)]).2.getLast? = some res ∧
      (res.triggered = true ↔ 10 ≤ tl - 0) := by
  refine (alert_c1 forRule10 10 rfl rfl).1 AlertEngine.with_default_history 1 0 sampleHigh
    [(10, sampleHigh)] ?_ rfl
  intro x hx
  simp only [List.mem_cons, List.not_mem_nil, or_false] at hx
  rcases hx with rfl | rfl
  · exact ⟨rfl, by with_unfolding_all rfl⟩
  · exact ⟨rfl, by with_unfolding_all rfl⟩

end Hefesto
